import Mathlib

/-!
Shallow embedding of the mystquarto converter core: the forward line scanner
(`src/mystquarto/scanner.py`), the MyST-to-Quarto transforms
(`src/mystquarto/transforms/myst_to_quarto.py`) and the Quarto-to-MyST
reverse converter (`src/mystquarto/transforms/quarto_to_myst.py`).

Lines are represented as `List Char` (a Python `str` restricted to ASCII as
used by the converter); documents are joined/split on a newline character
exactly as `text.split("\n")` / `"\n".join(...)` do.  Regular expressions
from the source are hand-translated into deterministic matchers; each
matcher's doc comment quotes the original pattern.
-/

namespace Mystquarto

/-- The backtick character (written via its code point). -/
def bq : Char := '\x60'

/-- The left-brace character. -/
def lb : Char := '\x7b'

/-- The right-brace character. -/
def rb : Char := '\x7d'

/-- Shorthand: the character list of a string literal. -/
def sl (s : String) : List Char := s.toList

/-- ASCII model of Python's whitespace class `\s` (and of `str.strip`). -/
def isPySpace (c : Char) : Bool :=
  c = ' ' || c = '\t' || c = '\n' || c = '\r' || c = '\x0b' || c = '\x0c'

/-- ASCII model of the regex word class `\w`. -/
def isWordChar (c : Char) : Bool :=
  ('a' ≤ c && c ≤ 'z') || ('A' ≤ c && c ≤ 'Z') || ('0' ≤ c && c ≤ '9') || c = '_'

/-- The character class `[\w-]`. -/
def isWordDash (c : Char) : Bool := isWordChar c || c = '-'

/-- Python `str.lstrip()`. -/
def pyLstrip (l : List Char) : List Char := l.dropWhile isPySpace

/-- Python `str.rstrip()`. -/
def pyRstrip (l : List Char) : List Char := (l.reverse.dropWhile isPySpace).reverse

/-- Python `str.strip()`. -/
def pyStrip (l : List Char) : List Char := pyRstrip (pyLstrip l)

/-- Python `str.strip(chars)`: remove the given characters from both ends. -/
def stripChars (set : List Char) (l : List Char) : List Char :=
  ((l.dropWhile (set.contains ·)).reverse.dropWhile (set.contains ·)).reverse

/-- Python `str.split(sep)` for a one-character separator (keeps empty pieces). -/
def splitChar (sep : Char) : List Char → List (List Char)
  | [] => [[]]
  | c :: rest =>
    match splitChar sep rest with
    | [] => [[c]]
    | h :: t => if c = sep then [] :: h :: t else (c :: h) :: t

/-- Python `"\n".join(lines)`. -/
def joinNL (lines : List (List Char)) : List Char := List.intercalate ['\n'] lines

/-- Helper for `Scanner._strip_indent`: how many leading space/tab characters
(up to the budget `n`) are removed. -/
def stripIndentCount : List Char → Nat → Nat
  | _, 0 => 0
  | [], _ + 1 => 0
  | c :: rest, n + 1 => if c = ' ' || c = '\t' then stripIndentCount rest n + 1 else 0

/-- Source `Scanner._strip_indent`: remove up to `indent` characters of leading
space/tab (a tab counts as one). -/
def stripIndent (l : List Char) (indent : Nat) : List Char :=
  if indent = 0 then l else l.drop (stripIndentCount l indent)

/-- Python `dict` assignment `d[k] = v`: insertion order is preserved and an
existing key keeps its position, with its value updated. -/
def insertOpt (k v : List Char) : List (List Char × List Char) → List (List Char × List Char)
  | [] => [(k, v)]
  | (k0, v0) :: rest => if k0 = k then (k0, v) :: rest else (k0, v0) :: insertOpt k v rest

/-- Python `dict.get(k, default)`. -/
def optsGet (opts : List (List Char × List Char)) (k d : List Char) : List Char :=
  match opts.find? (fun p => p.1 = k) with
  | some p => p.2
  | none => d

/-- Source `DirectiveFrame` from `scanner.py`: a parsed MyST directive block. -/
structure DirectiveFrame where
  name : List Char
  fenceChar : Char
  fenceCount : Nat
  argument : List Char
  options : List (List Char × List Char)
  bodyLines : List (List Char)
  indent : Nat
deriving DecidableEq

/-- Source `BACKTICK_OPEN_RE` / `COLON_OPEN_RE`:
`^(\s*)(F{3,})\{(\w[\w-]*)\}\s*(.*)$` for fence character `F`.
Returns `(F, indent, fenceCount, name, argument)` where `argument` is
`group(4).strip()` as computed at the use site in `Scanner.scan`. -/
def matchOpenFence (fc : Char) (line : List Char) : Option (Char × Nat × Nat × List Char × List Char) :=
  let ws := line.takeWhile isPySpace
  let rest := line.dropWhile isPySpace
  let run := rest.takeWhile (· = fc)
  if run.length < 3 then none
  else
    match rest.drop run.length with
    | c :: r2 =>
      if c = lb then
        match r2.head? with
        | some c0 =>
          if isWordChar c0 then
            let nm := r2.takeWhile isWordDash
            match r2.drop nm.length with
            | c2 :: r3 =>
              if c2 = rb then
                let g4 := r3.dropWhile isPySpace
                some (fc, ws.length, run.length, nm, pyStrip g4)
              else none
            | [] => none
          else none
        | none => none
      else none
    | [] => none

/-- Source `OPTION_RE`: `^:(\w[\w-]*):\s*(.*)$`, applied by `Scanner.scan` to the
indent-stripped, whitespace-stripped line.  Returns `(key, value.strip())`. -/
def matchOption (s : List Char) : Option (List Char × List Char) :=
  match s with
  | c :: rest =>
    if c = ':' then
      match rest.head? with
      | some c0 =>
        if isWordChar c0 then
          let key := rest.takeWhile isWordDash
          match rest.drop key.length with
          | c2 :: r2 =>
            if c2 = ':' then
              let g2 := r2.dropWhile isPySpace
              some (key, pyStrip g2)
            else none
          | [] => none
        else none
      | none => none
    else none
  | [] => none

/-- The regular (non-directive) code-fence opener in `Scanner.scan`:
`^(\s*)(`{3,}|~{3,})(\w*)\s*$`.  (The second, language-requiring pattern
`(\w+)` tried by the source is subsumed by this one and can never fire.)
Returns `(indent, fenceChar, fenceCount)`. -/
def matchRegularFenceOpen (line : List Char) : Option (Nat × Char × Nat) :=
  let ws := line.takeWhile isPySpace
  let rest := line.dropWhile isPySpace
  match rest.head? with
  | some c =>
    if c = bq || c = '~' then
      let run := rest.takeWhile (· = c)
      if run.length < 3 then none
      else
        let afterRun := rest.drop run.length
        let w := afterRun.takeWhile isWordChar
        if (afterRun.drop w.length).all isPySpace then some (ws.length, c, run.length)
        else none
    else none
  | none => none

/-- The regular code-fence closer in `Scanner.scan`:
`^(\s*)(C{3,})\s*$` for the remembered fence character `C`.
Returns `(closeIndent, closeCount)`. -/
def matchRegularFenceClose (fc : Char) (line : List Char) : Option (Nat × Nat) :=
  let ws := line.takeWhile isPySpace
  let rest := line.dropWhile isPySpace
  let run := rest.takeWhile (· = fc)
  if run.length < 3 then none
  else if (rest.drop run.length).all isPySpace then some (ws.length, run.length)
  else none

/-- Source `Scanner._is_close_fence`: the whitespace-stripped line must be non-empty,
consist solely of the frame's fence character, have at least the opening
fence's length, and sit at an indent no greater than the opener's. -/
def isCloseFence (stripped : List Char) (indent : Nat) (f : DirectiveFrame) : Bool :=
  match stripped with
  | [] => false
  | c :: _ =>
    if c ≠ f.fenceChar then false
    else if ¬ (stripped.all (· = f.fenceChar)) then false
    else if stripped.length < f.fenceCount then false
    else if f.indent < indent then false
    else true

/-- Source `Scanner.scan`'s per-line mutable state: the directive stack (head of the
list is the top, i.e. the end of the Python list), the options-mode flag, and
the regular-code-fence tracking variables.  The Python initial value of
`regular_fence_char` is the empty string; it is only ever read while
`inRegularFence` is set (which always sets it first), so a placeholder
character stands in for it here. -/
structure ScanState where
  stack : List DirectiveFrame
  inOptions : Bool
  inRegularFence : Bool
  regFenceChar : Char
  regFenceCount : Nat
  regFenceIndent : Nat
  output : List (List Char)
deriving DecidableEq

/-- The state at the top of `Scanner.scan`. -/
def initScanState : ScanState :=
  { stack := [], inOptions := false, inRegularFence := false,
    regFenceChar := bq, regFenceCount := 0, regFenceIndent := 0, output := [] }

/-- Source `backtick_m or colon_m` in `Scanner.scan`: try the backtick opener first,
then the colon opener. -/
def openMatch (line : List Char) : Option (Char × Nat × Nat × List Char × List Char) :=
  matchOpenFence bq line <|> matchOpenFence ':' line

/-- Whether a line closes the currently tracked regular code fence:
the close pattern must match and satisfy
`close_count >= regular_fence_count and close_indent <= regular_fence_indent`. -/
def regularFenceCloses (st : ScanState) (line : List Char) : Bool :=
  match matchRegularFenceClose st.regFenceChar line with
  | some (ci, cc) => st.regFenceCount ≤ cc && ci ≤ st.regFenceIndent
  | none => false

/-- One iteration of the `while` loop in `Scanner.scan` (every branch of the
Python loop consumes exactly one line).  `tf` is `transform_fn`, `inl` is
`inline_fn` (the source's `None` case corresponds to passing the identity). -/
def scanStep (tf : DirectiveFrame → List (List Char)) (inl : List Char → List Char)
    (st : ScanState) (line : List Char) : ScanState :=
  let stripped := pyLstrip line
  let indent := line.length - stripped.length
  match openMatch line, st.inRegularFence with
  | some (fc, ind, cnt, nm, arg), false =>
    { st with
      stack := { name := nm, fenceChar := fc, fenceCount := cnt, argument := arg,
                 options := [], bodyLines := [], indent := ind } :: st.stack,
      inOptions := true }
  | _, _ =>
    match st.stack with
    | cur :: rest =>
      if isCloseFence stripped indent cur then
        let transformed := tf cur
        match rest with
        | parent :: rest2 =>
          { st with
            stack := { parent with bodyLines := parent.bodyLines ++ transformed } :: rest2,
            inOptions := false }
        | [] =>
          { st with stack := [], output := st.output ++ transformed, inOptions := false }
      else if st.inOptions then
        let content := stripIndent line cur.indent
        match matchOption (pyStrip content) with
        | some (k, v) =>
          { st with stack := { cur with options := insertOpt k v cur.options } :: rest }
        | none =>
          if pyStrip content = [] then
            { st with inOptions := false }
          else
            { st with inOptions := false,
                      stack := { cur with bodyLines := cur.bodyLines ++ [stripIndent line cur.indent] } :: rest }
      else
        { st with stack := { cur with bodyLines := cur.bodyLines ++ [stripIndent line cur.indent] } :: rest }
    | [] =>
      if st.inRegularFence = false then
        match matchRegularFenceOpen line with
        | some (ind, fc, cnt) =>
          { st with inRegularFence := true, regFenceChar := fc, regFenceCount := cnt,
                    regFenceIndent := ind, output := st.output ++ [line] }
        | none => { st with output := st.output ++ [inl line] }
      else
        let st2 := if regularFenceCloses st line then { st with inRegularFence := false } else st
        { st2 with output := st2.output ++ [line] }

/-- The trailing `while self.stack` loop of `Scanner.scan`: at end of input,
still-open frames are popped (most recent first), transformed, and their
transformed lines are appended to the output list. -/
def scanFinish (tf : DirectiveFrame → List (List Char)) :
    List DirectiveFrame → List (List Char) → List (List Char)
  | [], out => out
  | f :: rest, out => scanFinish tf rest (out ++ tf f)

/-- Source `Scanner.scan` on a fresh scanner: split on newlines, run the loop, flush
unclosed frames, join with newlines. -/
def scanText (tf : DirectiveFrame → List (List Char)) (inl : List Char → List Char)
    (text : List Char) : List Char :=
  let fin := (splitChar '\n' text).foldl (scanStep tf inl) initScanState
  joinNL (scanFinish tf fin.stack fin.output)

/-- Source `_parse_tags`: strip, strip surrounding bracket characters, split on
commas, keep the pieces with non-blank strips, strip each and remove
surrounding quote characters. -/
def parseTags (tagsStr : List Char) : List (List Char) :=
  let cleaned := stripChars ['[', ']'] (pyStrip tagsStr)
  ((splitChar ',' cleaned).filter (fun t => pyStrip t ≠ [])).map
    (fun t => stripChars ['\x27', '"'] (pyStrip t))

/-- Source `_TAG_MAP`: MyST cell tag to Quarto cell option line. -/
def tagMap (tag : List Char) : Option (List Char) :=
  if tag = sl "remove-cell" then some (sl "#| include: false")
  else if tag = sl "remove-input" then some (sl "#| echo: false")
  else if tag = sl "remove-output" then some (sl "#| output: false")
  else if tag = sl "hide-input" then some (sl "#| code-fold: true")
  else none

/-- Source `_transform_code_cell`. -/
def transformCodeCell (f : DirectiveFrame) : List (List Char) :=
  let lang0 := if f.argument ≠ [] then pyStrip f.argument else sl "python"
  let lang := if lang0 = sl "ipython3" then sl "python" else lang0
  let l1 : List (List Char) := [sl "```\x7b" ++ lang ++ [rb]]
  let tags := parseTags (optsGet f.options (sl "tags") [])
  let l2 := l1 ++ tags.filterMap tagMap
  let caption := optsGet f.options (sl "caption") []
  let l3 := l2 ++ (if caption ≠ [] then [sl "#| fig-cap: \"" ++ caption ++ sl "\""] else [])
  let l4 := l3 ++ (if 1 < l3.length then [([] : List Char)] else [])
  l4 ++ f.bodyLines ++ [sl "```"]

/-- Source `_transform_figure`. -/
def transformFigure (f : DirectiveFrame) : List (List Char) :=
  let path := pyStrip f.argument
  let caption := List.intercalate [' ']
    ((f.bodyLines.filter (fun l => pyStrip l ≠ [])).map pyStrip)
  let name := optsGet f.options (sl "name") []
  let width := optsGet f.options (sl "width") []
  let attrs := (if name ≠ [] then [['#'] ++ name] else [])
    ++ (if width ≠ [] then [sl "width=\"" ++ width ++ sl "\""] else [])
  let attrStr := if attrs ≠ [] then [lb] ++ List.intercalate [' '] attrs ++ [rb] else []
  [sl "![" ++ caption ++ sl "](" ++ path ++ sl ")" ++ attrStr]

/-- Source `_transform_math`. -/
def transformMath (f : DirectiveFrame) : List (List Char) :=
  let label := optsGet f.options (sl "label") []
  [sl "$$"] ++ f.bodyLines
    ++ [if label ≠ [] then sl "$$ \x7b#" ++ label ++ [rb] else sl "$$"]

/-- Source `_transform_admonition`. -/
def transformAdmonition (f : DirectiveFrame) (admType title : List Char) : List (List Char) :=
  let header :=
    if title ≠ [] then
      sl "::: \x7b.callout-" ++ admType ++ sl " title=\"" ++ title ++ sl "\"\x7d"
    else sl "::: \x7b.callout-" ++ admType ++ [rb]
  [header] ++ f.bodyLines ++ [sl ":::"]

/-- Source `_transform_tab_set`. -/
def transformTabSet (f : DirectiveFrame) : List (List Char) :=
  [sl "::: \x7b.panel-tabset\x7d"] ++ f.bodyLines ++ [sl ":::"]

/-- Source `_transform_tab_item`. -/
def transformTabItem (f : DirectiveFrame) : List (List Char) :=
  [sl "## " ++ pyStrip f.argument] ++ f.bodyLines

/-- Source `_transform_margin`. -/
def transformMargin (f : DirectiveFrame) : List (List Char) :=
  [sl "::: \x7b.column-margin\x7d"] ++ f.bodyLines ++ [sl ":::"]

/-- Source `_transform_image`. -/
def transformImage (f : DirectiveFrame) : List (List Char) :=
  let url := pyStrip f.argument
  let alt := optsGet f.options (sl "alt") []
  let width := optsGet f.options (sl "width") []
  let attrs := if width ≠ [] then [sl "width=\"" ++ width ++ sl "\""] else []
  let attrStr := if attrs ≠ [] then [lb] ++ List.intercalate [' '] attrs ++ [rb] else []
  [sl "![" ++ alt ++ sl "](" ++ url ++ sl ")" ++ attrStr]

/-- Source `_transform_table`. -/
def transformTable (f : DirectiveFrame) : List (List Char) :=
  let caption := pyStrip f.argument
  let name := optsGet f.options (sl "name") []
  f.bodyLines
    ++ (if name ≠ [] then [sl ": " ++ caption ++ sl " \x7b#" ++ name ++ [rb]]
        else if caption ≠ [] then [sl ": " ++ caption]
        else [])

/-- Source `_transform_mermaid`. -/
def transformMermaid (f : DirectiveFrame) : List (List Char) :=
  [sl "```\x7bmermaid\x7d"] ++ f.bodyLines ++ [sl "```"]

/-- Source `_transform_unknown`: pass the directive through with a warning comment. -/
def transformUnknown (f : DirectiveFrame) : List (List Char) :=
  let fence := List.replicate f.fenceCount f.fenceChar
  [sl "<!-- WARNING: unknown MyST directive '" ++ f.name ++ sl "' -->"]
    ++ [fence ++ [lb] ++ f.name ++ [rb]
        ++ (if f.argument ≠ [] then [' '] ++ f.argument else [])]
    ++ f.options.map (fun p => [':'] ++ p.1 ++ sl ": " ++ p.2)
    ++ (if f.bodyLines ≠ [] then [([] : List Char)] ++ f.bodyLines else [])
    ++ [fence]

/-- Source `_ADMONITION_TYPES` membership (forward direction). -/
def isAdmonitionType (n : List Char) : Bool :=
  n = sl "note" || n = sl "warning" || n = sl "tip" || n = sl "important" || n = sl "caution"

/-- Source `transform_directive`: dispatch a completed frame on its directive name. -/
def transformDirective (f : DirectiveFrame) : List (List Char) :=
  if f.name = sl "code-cell" then transformCodeCell f
  else if f.name = sl "figure" then transformFigure f
  else if f.name = sl "math" then transformMath f
  else if isAdmonitionType f.name then transformAdmonition f f.name []
  else if f.name = sl "admonition" then transformAdmonition f (sl "note") f.argument
  else if f.name = sl "bibliography" then []
  else if f.name = sl "abstract" then []
  else if f.name = sl "tab-set" then transformTabSet f
  else if f.name = sl "tab-item" then transformTabItem f
  else if f.name = sl "margin" then transformMargin f
  else if f.name = sl "image" then transformImage f
  else if f.name = sl "table" then transformTable f
  else if f.name = sl "tableofcontents" then []
  else if f.name = sl "mermaid" then transformMermaid f
  else transformUnknown f

/-- One `re.sub` pass over a line: scan left to right, replacing leftmost
non-overlapping matches.  A matcher receives the character preceding the
current position (for lookbehind assertions) and the remaining input, and
returns the replacement together with the number of consumed characters
(always at least one for every pattern below).  The fuel is the input length,
which suffices since every step consumes at least one character. -/
def subPass (m : Option Char → List Char → Option (List Char × Nat)) :
    Nat → Option Char → List Char → List Char
  | 0, _, s => s
  | _ + 1, _, [] => []
  | fuel + 1, prev, c :: cs =>
    match m prev (c :: cs) with
    | some (repl, consumed) =>
      repl ++ subPass m fuel ((c :: cs).take consumed).getLast? ((c :: cs).drop consumed)
    | none => c :: subPass m fuel (some c) cs

/-- Run one substitution pass over a whole line. -/
def runSub (m : Option Char → List Char → Option (List Char × Nat)) (s : List Char) : List Char :=
  subPass m s.length none s

/-- Match `LIT([^`]+)`` at the current position, where `LIT` is the literal
role opener ending in a backtick (e.g. `\x7beval\x7d` followed by a
backtick).  Returns the captured group and the total match length. -/
def roleAt (lit : List Char) (s : List Char) : Option (List Char × Nat) :=
  if lit.isPrefixOf s then
    let r1 := s.drop lit.length
    let content := r1.takeWhile (· ≠ bq)
    if content ≠ [] && (r1.drop content.length).head? = some bq then
      some (content, lit.length + content.length + 1)
    else none
  else none

/-- Source `_EVAL_RE` / `_replace_eval`. -/
def evalSub (_ : Option Char) (s : List Char) : Option (List Char × Nat) :=
  (roleAt (sl "\x7beval\x7d`") s).map fun p =>
    (sl "`\x7bpython\x7d " ++ p.1 ++ [bq], p.2)

/-- Source `_CITE_T_RE` / `_replace_cite_t`. -/
def citeTSub (_ : Option Char) (s : List Char) : Option (List Char × Nat) :=
  (roleAt (sl "\x7bcite:t\x7d`") s).map fun p =>
    (['@'] ++ pyStrip p.1, p.2)

/-- Shared body of `_replace_cite_p` and `_replace_cite`. -/
def citeKeysRepl (content : List Char) : List Char :=
  let keys := (splitChar ',' content).map pyStrip
  match keys with
  | [k] => sl "[@" ++ k ++ sl "]"
  | _ => sl "[" ++ List.intercalate (sl "; ") (keys.map (fun k => ['@'] ++ k)) ++ sl "]"

/-- Source `_CITE_P_RE` / `_replace_cite_p`. -/
def citePSub (_ : Option Char) (s : List Char) : Option (List Char × Nat) :=
  (roleAt (sl "\x7bcite:p\x7d`") s).map fun p => (citeKeysRepl p.1, p.2)

/-- Source `_CITE_RE` / `_replace_cite`. -/
def citeSub (_ : Option Char) (s : List Char) : Option (List Char × Nat) :=
  (roleAt (sl "\x7bcite\x7d`") s).map fun p => (citeKeysRepl p.1, p.2)

/-- The inner `re.match(".*<(.+)>$", content)` of `_replace_numref`: the
greedy `.*` selects the last `<` that leaves at least one character before a
final `>`. -/
def numrefAngle (content : List Char) : Option (List Char) :=
  let n := content.length
  if content.getLast? = some '>' then
    match (List.range n).reverse.find? (fun k => k + 2 < n && content.get? k = some '<') with
    | some k => some (pyStrip ((content.drop (k + 1)).take (n - 1 - (k + 1))))
    | none => none
  else none

/-- Source `_NUMREF_RE` / `_replace_numref`. -/
def numrefSub (_ : Option Char) (s : List Char) : Option (List Char × Nat) :=
  (roleAt (sl "\x7bnumref\x7d`") s).map fun p =>
    let content := pyStrip p.1
    match numrefAngle content with
    | some g => (['@'] ++ g, p.2)
    | none => (['@'] ++ content, p.2)

/-- Source `_REF_RE` / `_replace_ref`. -/
def refSub (_ : Option Char) (s : List Char) : Option (List Char × Nat) :=
  (roleAt (sl "\x7bref\x7d`") s).map fun p => (['@'] ++ pyStrip p.1, p.2)

/-- Source `_EQ_RE` / `_replace_eq`. -/
def eqSub (_ : Option Char) (s : List Char) : Option (List Char × Nat) :=
  (roleAt (sl "\x7beq\x7d`") s).map fun p =>
    let label := pyStrip p.1
    let label := if (sl "eq-").isPrefixOf label then label else sl "eq-" ++ label
    (['@'] ++ label, p.2)

/-- Source `_DOC_RE` / `_replace_doc`. -/
def docSub (_ : Option Char) (s : List Char) : Option (List Char × Nat) :=
  (roleAt (sl "\x7bdoc\x7d`") s).map fun p =>
    let path := pyStrip p.1
    (sl "[" ++ path ++ sl "](" ++ path ++ sl ".qmd)", p.2)

/-- Source `transform_inline`: apply the eight MyST-role substitutions in source
order to a single line (empty lines are returned unchanged). -/
def transformInline (line : List Char) : List Char :=
  if line = [] then line
  else
    let r := runSub evalSub line
    let r := runSub citeTSub r
    let r := runSub citePSub r
    let r := runSub citeSub r
    let r := runSub numrefSub r
    let r := runSub refSub r
    let r := runSub eqSub r
    runSub docSub r

/-- Source `convert_myst_to_quarto`: the public MyST-to-Quarto conversion. -/
def convert_myst_to_quarto (text : String) : String :=
  String.mk (scanText transformDirective transformInline text.toList)

/-- Python `str.lower()` restricted to ASCII. -/
def asciiLower (l : List Char) : List Char :=
  l.map fun c => if 'A' ≤ c && c ≤ 'Z' then Char.ofNat (c.toNat + 32) else c

/-- Source `_EXEC_LANGUAGES`. -/
def isExecLanguage (lang : List Char) : Bool :=
  lang = sl "python" || lang = sl "r" || lang = sl "julia" || lang = sl "bash" ||
  lang = sl "sh" || lang = sl "sql" || lang = sl "ojs" || lang = sl "dot" ||
  lang = sl "mermaid"

/-- Source `_EXEC_CODE_RE`: `^(`{3,})\{(\w+)\}\s*$`.  Returns `(fenceCount, lang)`. -/
def matchExecCode (s : List Char) : Option (Nat × List Char) :=
  let run := s.takeWhile (· = bq)
  if run.length < 3 then none
  else
    match s.drop run.length with
    | c :: r1 =>
      if c = lb then
        let lang := r1.takeWhile isWordChar
        if lang = [] then none
        else
          match r1.drop lang.length with
          | c2 :: r2 =>
            if c2 = rb && (r2.all isPySpace) then some (run.length, lang) else none
          | [] => none
      else none
    | [] => none

/-- Source `_BACKTICK_CLOSE_RE`: `^(`{3,})\s*$`. -/
def matchBacktickClose (s : List Char) : Option Nat :=
  let run := s.takeWhile (· = bq)
  if run.length < 3 then none
  else if (s.drop run.length).all isPySpace then some run.length
  else none

/-- Source `_COLON_CLOSE_RE`: `^(:{3,})\s*$`. -/
def matchColonClose (s : List Char) : Option Nat :=
  let run := s.takeWhile (· = ':')
  if run.length < 3 then none
  else if (s.drop run.length).all isPySpace then some run.length
  else none

/-- The five callout/admonition kinds, in the alternation order of
`_CALLOUT_RE` (their first letters differ, so at most one can match). -/
def calloutTypes : List (List Char) :=
  [sl "note", sl "warning", sl "tip", sl "important", sl "caution"]

/-- Source `_CALLOUT_RE`:
`^(:{3,})\s*\{\.callout-(note|warning|tip|important|caution)(?:\s+title="([^"]*)")?\s*\}`
(a prefix match, not anchored at the end).  Returns
`(fenceCount, admType, title)` with `title` already defaulted to the empty
string as by `callout_m.group(3) or ""`. -/
def matchCallout (s : List Char) : Option (Nat × List Char × List Char) :=
  let run := s.takeWhile (· = ':')
  if run.length < 3 then none
  else
    let r1 := (s.drop run.length).dropWhile isPySpace
    if (sl "\x7b.callout-").isPrefixOf r1 then
      let r2 := r1.drop 10
      match calloutTypes.find? (fun t => t.isPrefixOf r2) with
      | some t =>
        let r3 := r2.drop t.length
        let withTitle : Option (List Char) :=
          let wsr := r3.takeWhile isPySpace
          if wsr = [] then none
          else
            let r4 := r3.drop wsr.length
            if (sl "title=\"").isPrefixOf r4 then
              let r5 := r4.drop 7
              let tc := r5.takeWhile (· ≠ '"')
              if (r5.drop tc.length).head? = some '"' then
                let r6 := r5.drop (tc.length + 1)
                if (r6.dropWhile isPySpace).head? = some rb then some tc else none
              else none
            else none
        match withTitle with
        | some tc => some (run.length, t, tc)
        | none =>
          if (r3.dropWhile isPySpace).head? = some rb then some (run.length, t, [])
          else none
      | none => none
    else none

/-- Source `_TABSET_RE`: `^(:{3,})\s*\{\.panel-tabset\}` (prefix match). -/
def matchTabset (s : List Char) : Option Nat :=
  let run := s.takeWhile (· = ':')
  if run.length < 3 then none
  else if (sl "\x7b.panel-tabset\x7d").isPrefixOf ((s.drop run.length).dropWhile isPySpace) then
    some run.length
  else none

/-- Source `_MARGIN_RE`: `^(:{3,})\s*\{\.column-margin\}` (prefix match). -/
def matchMargin (s : List Char) : Option Nat :=
  let run := s.takeWhile (· = ':')
  if run.length < 3 then none
  else if (sl "\x7b.column-margin\x7d").isPrefixOf ((s.drop run.length).dropWhile isPySpace) then
    some run.length
  else none

/-- Source `_IMG_ATTRS_RE`: `^!\[([^\]]*)\]\(([^)]+)\)\{([^}]+)\}\s*$`.
Returns `(alt, url, attrString)`. -/
def matchImgAttrs (s : List Char) : Option (List Char × List Char × List Char) :=
  if (sl "![").isPrefixOf s then
    let r1 := s.drop 2
    let alt := r1.takeWhile (· ≠ ']')
    if (r1.drop alt.length).head? = some ']' then
      match r1.drop (alt.length + 1) with
      | '(' :: r2 =>
        let url := r2.takeWhile (· ≠ ')')
        if url ≠ [] ∧ (r2.drop url.length).head? = some ')' then
          match r2.drop (url.length + 1) with
          | c :: r3 =>
            if c = lb then
              let attrs := r3.takeWhile (· ≠ rb)
              if attrs ≠ [] ∧ (r3.drop attrs.length).head? = some rb ∧
                  (r3.drop (attrs.length + 1)).all isPySpace then
                some (alt, url, attrs)
              else none
            else none
          | [] => none
        else none
      | _ => none
    else none
  else none

/-- Source `re.search(r"#([\w-]+)", attr_str)` in `_parse_image_attrs`. -/
def searchHashId : List Char → Option (List Char)
  | [] => none
  | c :: rest =>
    if c = '#' then
      let run := rest.takeWhile isWordDash
      if run ≠ [] then some run else searchHashId rest
    else searchHashId rest

/-- The character class `[^"\s}]` of the width pattern. -/
def isWidthChar (c : Char) : Bool := !(c = '"' || isPySpace c || c = rb)

/-- Source `re.search(r'width="?([^"\s}]+)"?', attr_str)` in `_parse_image_attrs`. -/
def searchWidth : List Char → Option (List Char)
  | [] => none
  | c :: rest =>
    if (sl "width=").isPrefixOf (c :: rest) then
      let r := (c :: rest).drop 6
      match r.head? with
      | some q =>
        if q = '"' then
          let run := (r.drop 1).takeWhile isWidthChar
          if run ≠ [] then some run else searchWidth rest
        else
          let run := r.takeWhile isWidthChar
          if run ≠ [] then some run else searchWidth rest
      | none => searchWidth rest
    else searchWidth rest

/-- Source `_parse_image_attrs`: the optional `#id` and `width` attributes. -/
def parseImageAttrs (attrStr : List Char) : Option (List Char) × Option (List Char) :=
  (searchHashId attrStr, searchWidth attrStr)

/-- Source `_MATH_OPEN_RE`: `^\$\$\s*$`. -/
def matchMathOpen (s : List Char) : Bool :=
  (sl "$$").isPrefixOf s && (s.drop 2).all isPySpace

/-- Source `_MATH_CLOSE_LABEL_RE`: `^\$\$\s*\{#([\w-]+)\}\s*$`. -/
def matchMathCloseLabel (s : List Char) : Option (List Char) :=
  if (sl "$$").isPrefixOf s then
    let r1 := (s.drop 2).dropWhile isPySpace
    if (sl "\x7b#").isPrefixOf r1 then
      let run := (r1.drop 2).takeWhile isWordDash
      if run ≠ [] ∧ (r1.drop (2 + run.length)).head? = some rb ∧
          (r1.drop (2 + run.length + 1)).all isPySpace then
        some run
      else none
    else none
  else none

/-- Source `_TABLE_CAPTION_RE`: `^:\s+(.+?)\s*\{#(tbl-[\w-]+)\}\s*$`.
The greedy `\s+` is tried longest first; for each, the lazy `(.+?)` grows
from the shortest caption; the first full match wins.  Returns
`(captionGroup, name)` with the name carrying its `tbl-` prefix. -/
def matchTableCaption (s : List Char) : Option (List Char × List Char) :=
  match s with
  | c :: r1 =>
    if c = ':' then
      let wmax := (r1.takeWhile isPySpace).length
      ((List.range wmax).map (fun d => wmax - d)).findSome? (fun wlen =>
        let afterW := r1.drop wlen
        ((List.range afterW.length).map (· + 1)).findSome? (fun clen =>
          let cap := afterW.take clen
          let rest2 := (afterW.drop clen).dropWhile isPySpace
          if (sl "\x7b#tbl-").isPrefixOf rest2 then
            let run := (rest2.drop 6).takeWhile isWordDash
            if run ≠ [] ∧ (rest2.drop (6 + run.length)).head? = some rb ∧
                (rest2.drop (6 + run.length + 1)).all isPySpace then
              some (cap, sl "tbl-" ++ run)
            else none
          else none))
    else none
  | [] => none

/-- Source `_TABLE_ROW_RE`: `^\|.*\|\s*$`. -/
def matchTableRow (s : List Char) : Bool :=
  match s with
  | c :: _ =>
    c = '|' && (let r := pyRstrip s; 2 ≤ r.length && r.getLast? = some '|')
  | [] => false

/-- Source `_CELL_OPTION_RE`: `^#\|\s+([\w-]+):\s+(.+)$`, applied to the stripped
line.  The value is recorded as `group(2).strip()`, which equals the strip of
everything after the colon whenever the pattern matches. -/
def matchCellOption (s : List Char) : Option (List Char × List Char) :=
  if (sl "#|").isPrefixOf s then
    let r1 := s.drop 2
    if (r1.takeWhile isPySpace) = [] then none
    else
      let r2 := r1.dropWhile isPySpace
      let key := r2.takeWhile isWordDash
      if key = [] then none
      else
        match r2.drop key.length with
        | c :: r3 =>
          if c = ':' ∧ r3.head?.any isPySpace ∧ 2 ≤ r3.length then
            some (key, pyStrip r3)
          else none
        | [] => none
  else none

/-- The scanning loop of `_parse_cell_options`. -/
def parseCellOptionsGo (opts : List (List Char × List Char)) :
    List (List Char) → List (List Char × List Char) × List (List Char)
  | [] => (opts, [])
  | l :: rest =>
    match matchCellOption (pyStrip l) with
    | some (k, v) => parseCellOptionsGo (insertOpt k v opts) rest
    | none => (opts, l :: rest)

/-- Source `_parse_cell_options`: collect leading `#|` option lines, then drop one
blank separator line from the remaining body if present. -/
def parseCellOptions (body : List (List Char)) :
    List (List Char × List Char) × List (List Char) :=
  let (opts, rem) := parseCellOptionsGo [] body
  match rem with
  | r :: rest => if pyStrip r = [] then (opts, rest) else (opts, rem)
  | [] => (opts, [])

/-- Source `_OPTION_TO_TAG`, value-keyed: which MyST tag a Quarto cell option maps
back to. -/
def optionToTag (k v : List Char) : Option (List Char) :=
  if k = sl "include" && v = sl "false" then some (sl "remove-cell")
  else if k = sl "echo" && v = sl "false" then some (sl "remove-input")
  else if k = sl "output" && v = sl "false" then some (sl "remove-output")
  else if k = sl "code-fold" && v = sl "true" then some (sl "hide-input")
  else none

/-- Source `_build_code_cell`. -/
def buildCodeCell (lang : List Char) (options : List (List Char × List Char))
    (body : List (List Char)) : List (List Char) :=
  let l1 : List (List Char) := [sl "```\x7bcode-cell\x7d " ++ lang]
  let tags := options.filterMap (fun p => optionToTag p.1 p.2)
  let caption := stripChars ['\x27'] (stripChars ['"'] (optsGet options (sl "fig-cap") []))
  let l2 := l1 ++ (if tags ≠ [] then
    [sl ":tags: [" ++ List.intercalate (sl ", ") tags ++ sl "]"] else [])
  let l3 := l2 ++ (if caption ≠ [] then [sl ":caption: " ++ caption] else [])
  let l4 := l3 ++ (if 1 < l3.length then [([] : List Char)] else [])
  l4 ++ body ++ [sl "```"]

/-- Source `_build_admonition`. -/
def buildAdmonition (admType title : List Char) (body : List (List Char)) : List (List Char) :=
  (if title ≠ [] then [sl "```\x7badmonition\x7d " ++ title]
   else [sl "```\x7b" ++ admType ++ [rb]])
    ++ body ++ [sl "```"]

/-- Source `_build_margin`. -/
def buildMargin (body : List (List Char)) : List (List Char) :=
  [sl "```\x7bmargin\x7d"] ++ body ++ [sl "```"]

/-- The `## heading` pattern `^##\s+(.+)$` inside `_build_tab_set`; the label
is `group(1).strip()`, which equals the strip of everything after `##`
whenever the pattern matches. -/
def matchTabHeading (line : List Char) : Option (List Char) :=
  if (sl "##").isPrefixOf line then
    let r := line.drop 2
    if r.head?.any isPySpace ∧ 2 ≤ r.length then some (pyStrip r) else none
  else none

/-- Remove trailing blank lines from a tab body
(`while current_body and current_body[-1].strip() == ""`). -/
def dropTrailingBlanks (l : List (List Char)) : List (List Char) :=
  (l.reverse.dropWhile (fun x => (pyStrip x).isEmpty)).reverse

/-- Emit one tab item inside `_build_tab_set`. -/
def flushTabItem (label : List Char) (body : List (List Char)) : List (List Char) :=
  [sl ":::\x7btab-item\x7d " ++ label] ++ dropTrailingBlanks body ++ [sl ":::"]

/-- The heading-splitting loop of `_build_tab_set`.  Lines before the first
heading are accumulated but never flushed, exactly as in the source. -/
def buildTabSetGo (lab : Option (List Char)) (curBody acc : List (List Char)) :
    List (List Char) → List (List Char)
  | [] =>
    match lab with
    | some label => acc ++ flushTabItem label curBody
    | none => acc
  | l :: rest =>
    match matchTabHeading l with
    | some newLabel =>
      match lab with
      | some label => buildTabSetGo (some newLabel) [] (acc ++ flushTabItem label curBody) rest
      | none => buildTabSetGo (some newLabel) [] acc rest
    | none => buildTabSetGo lab (curBody ++ [l]) acc rest

/-- Source `_build_tab_set`. -/
def buildTabSet (body : List (List Char)) : List (List Char) :=
  buildTabSetGo none [] [sl "::::\x7btab-set\x7d"] body ++ [sl "::::"]

/-- Source `_build_figure_directive`. -/
def buildFigureDirective (alt url : List Char) (idAttr widthAttr : Option (List Char)) :
    List (List Char) :=
  [sl "```\x7bfigure\x7d " ++ url]
    ++ (match idAttr with | some i => [sl ":name: " ++ i] | none => [])
    ++ (match widthAttr with | some w => [sl ":width: " ++ w] | none => [])
    ++ [([] : List Char)]
    ++ (if alt ≠ [] then [alt] else [])
    ++ [sl "```"]

/-- Source `_build_image_directive`. -/
def buildImageDirective (alt url : List Char) (widthAttr : Option (List Char)) :
    List (List Char) :=
  [sl "```\x7bimage\x7d " ++ url]
    ++ (if alt ≠ [] then [sl ":alt: " ++ alt] else [])
    ++ (match widthAttr with | some w => [sl ":width: " ++ w] | none => [])
    ++ [sl "```"]

/-- Source `_build_math_directive`. -/
def buildMathDirective (label : List Char) (body : List (List Char)) : List (List Char) :=
  [sl "```\x7bmath\x7d"]
    ++ (if label ≠ [] then [sl ":label: " ++ label] else [])
    ++ [([] : List Char)]
    ++ body ++ [sl "```"]

/-- Source `_build_table_directive`. -/
def buildTableDirective (caption name : List Char) (tableLines : List (List Char)) :
    List (List Char) :=
  [sl "```\x7btable\x7d " ++ caption]
    ++ (if name ≠ [] then [sl ":name: " ++ name] else [])
    ++ [([] : List Char)]
    ++ tableLines ++ [sl "```"]

/-- Source `_INLINE_CODE_RE` / `_replace_inline_code`:
`` `\{python\}\s+([^`]+)` ``.  The greedy `\s+` keeps at most all but one of
the whitespace run, the rest going to the group. -/
def inlineCodeSub (_ : Option Char) (s : List Char) : Option (List Char × Nat) :=
  if (sl "`\x7bpython\x7d").isPrefixOf s then
    let r1 := s.drop 9
    let t := r1.takeWhile (· ≠ bq)
    if (r1.drop t.length).head? = some bq ∧ 2 ≤ t.length ∧ t.head?.any isPySpace then
      let w := min (t.takeWhile isPySpace).length (t.length - 1)
      some (sl "\x7beval\x7d`" ++ t.drop w ++ [bq], 9 + t.length + 1)
    else none
  else none

/-- Source `@[\w-]+` at the current position: the key (without `@`) and the rest. -/
def parseCiteKey (s : List Char) : Option (List Char × List Char) :=
  match s with
  | c :: r =>
    if c = '@' then
      let k := r.takeWhile isWordDash
      if k ≠ [] then some (k, r.drop k.length) else none
    else none
  | [] => none

/-- The greedy repetition `(?:;\s*@[\w-]+)+` of `_MULTI_CITE_RE`: take as
many `; @key` groups as parse; no useful backtracking exists because a
shorter repetition leaves a `;` where `]` is required. -/
def multiCiteLoop : Nat → List Char → List (List Char) → List (List Char) × List Char
  | 0, s, acc => (acc, s)
  | fuel + 1, s, acc =>
    match s with
    | ';' :: r =>
      match parseCiteKey (r.dropWhile isPySpace) with
      | some (k, rest) => multiCiteLoop fuel rest (acc ++ [k])
      | none => (acc, ';' :: r)
    | _ => (acc, s)

/-- Source `_MULTI_CITE_RE` / `_replace_multi_cite`:
`\[(@[\w-]+(?:;\s*@[\w-]+)+)\]`.  The replacement joins the stripped,
`@`-stripped keys with commas. -/
def multiCiteSub (_ : Option Char) (s : List Char) : Option (List Char × Nat) :=
  match s with
  | c :: r1 =>
    if c = '[' then
      match parseCiteKey r1 with
      | some (k1, rest1) =>
        let (keys, rest2) := multiCiteLoop s.length rest1 [k1]
        if 2 ≤ keys.length ∧ rest2.head? = some ']' then
          some (sl "\x7bcite\x7d`" ++ List.intercalate [','] keys ++ [bq],
                s.length - rest2.length + 1)
        else none
      | none => none
    else none
  | [] => none

/-- Source `_SINGLE_CITE_RE` / `_replace_single_cite`: `\[@([\w-]+)\]`. -/
def singleCiteSub (_ : Option Char) (s : List Char) : Option (List Char × Nat) :=
  match s with
  | c :: r1 =>
    if c = '[' then
      match parseCiteKey r1 with
      | some (k, rest) =>
        if rest.head? = some ']' then
          some (sl "\x7bcite\x7d`" ++ k ++ [bq], 1 + 1 + k.length + 1)
        else none
      | none => none
    else none
  | [] => none

/-- Shared matcher for the prefixed cross-reference patterns
`(?<!\w)@(PRE[\w-]+)(?!\w)`: the preceding character must not be a word
character, and after the maximal `[\w-]` run the trailing lookahead is
automatic. -/
def refPrefixedAt (pre : List Char) (prev : Option Char) (s : List Char) :
    Option (List Char × Nat) :=
  if prev.any isWordChar then none
  else
    match s with
    | c :: r =>
      if c = '@' then
        if pre.isPrefixOf r then
          let run := (r.drop pre.length).takeWhile isWordDash
          if run ≠ [] then some (pre ++ run, 1 + pre.length + run.length) else none
        else none
      else none
    | [] => none

/-- Source `_FIG_REF_RE` / `_replace_fig_ref`. -/
def figRefSub (prev : Option Char) (s : List Char) : Option (List Char × Nat) :=
  (refPrefixedAt (sl "fig-") prev s).map fun p =>
    (sl "\x7bnumref\x7d`" ++ p.1 ++ [bq], p.2)

/-- Source `_EQ_REF_RE` / `_replace_eq_ref`. -/
def eqRefSub (prev : Option Char) (s : List Char) : Option (List Char × Nat) :=
  (refPrefixedAt (sl "eq-") prev s).map fun p =>
    (sl "\x7beq\x7d`" ++ p.1 ++ [bq], p.2)

/-- Source `_TBL_REF_RE` / `_replace_tbl_ref`. -/
def tblRefSub (prev : Option Char) (s : List Char) : Option (List Char × Nat) :=
  (refPrefixedAt (sl "tbl-") prev s).map fun p =>
    (sl "\x7bref\x7d`" ++ p.1 ++ [bq], p.2)

/-- Source `_SEC_REF_RE` / `_replace_sec_ref`. -/
def secRefSub (prev : Option Char) (s : List Char) : Option (List Char × Nat) :=
  (refPrefixedAt (sl "sec-") prev s).map fun p =>
    (sl "\x7bref\x7d`" ++ p.1 ++ [bq], p.2)

/-- Source `_BARE_CITE_RE` / `_replace_bare_cite`:
`(?<!\w)@((?!fig-|eq-|tbl-|sec-)[\w][\w-]*)(?!\w)`. -/
def bareCiteSub (prev : Option Char) (s : List Char) : Option (List Char × Nat) :=
  if prev.any isWordChar then none
  else
    match s with
    | c :: r =>
      if c = '@' then
        if (sl "fig-").isPrefixOf r ∨ (sl "eq-").isPrefixOf r ∨
            (sl "tbl-").isPrefixOf r ∨ (sl "sec-").isPrefixOf r then none
        else
          match r.head? with
          | some c0 =>
            if isWordChar c0 then
              let run := r.takeWhile isWordDash
              some (sl "\x7bcite:t\x7d`" ++ run ++ [bq], 1 + run.length)
            else none
          | none => none
      else none
    | [] => none

/-- Source `_DOC_LINK_RE` / `_replace_doc_link`: `\[([^\]]+)\]\(([^\)]+\.qmd)\)`.
When the link text does not match the path (or its basename) the match is
replaced by itself — i.e. left unchanged — but scanning still resumes after
it. -/
def docLinkSub (_ : Option Char) (s : List Char) : Option (List Char × Nat) :=
  match s with
  | c :: r1 =>
    if c = '[' then
      let text := r1.takeWhile (· ≠ ']')
      if text ≠ [] ∧ (r1.drop text.length).head? = some ']' then
        match r1.drop (text.length + 1) with
        | c2 :: r2 =>
          if c2 = '(' then
            let url := r2.takeWhile (· ≠ ')')
            if url ≠ [] ∧ (r2.drop url.length).head? = some ')' ∧
                (sl ".qmd").isSuffixOf url ∧ 4 < url.length then
              let consumed := 1 + text.length + 1 + 1 + url.length + 1
              let path := url.take (url.length - 4)
              let base := ((splitChar '/' path).getLast?).getD []
              if text = path ∨ text = base then
                some (sl "\x7bdoc\x7d`" ++ path ++ [bq], consumed)
              else
                some (sl "[" ++ text ++ sl "](" ++ url ++ sl ")", consumed)
            else none
          else none
        | [] => none
      else none
    else none
  | [] => none

/-- Source `transform_quarto_inline`: the nine Quarto-to-MyST substitutions in
source order (empty lines are returned unchanged). -/
def transformQuartoInline (line : List Char) : List Char :=
  if line = [] then line
  else
    let r := runSub inlineCodeSub line
    let r := runSub multiCiteSub r
    let r := runSub singleCiteSub r
    let r := runSub figRefSub r
    let r := runSub eqRefSub r
    let r := runSub tblRefSub r
    let r := runSub secRefSub r
    let r := runSub bareCiteSub r
    runSub docLinkSub r

/-- The executable-fence test of the first dispatch branch: the stripped line
must match `_EXEC_CODE_RE` and the lowered language must be in
`_EXEC_LANGUAGES` (otherwise the source falls through to later branches). -/
def execCheck (stripped : List Char) : Option (Nat × List Char) :=
  match matchExecCode stripped with
  | some (cnt, lang) => if isExecLanguage (asciiLower lang) then some (cnt, lang) else none
  | none => none

/-- The backtick-close test of the exec-block inner loop:
`close_m and len(close_m.group(1)) >= fence_count` on the stripped line. -/
def closesBacktickGE (cnt : Nat) (l : List Char) : Bool :=
  match matchBacktickClose (pyStrip l) with
  | some c => cnt ≤ c
  | none => false

/-- The colon-close test of the callout/tabset/margin inner loops. -/
def closesColonGE (cnt : Nat) (l : List Char) : Bool :=
  match matchColonClose (pyStrip l) with
  | some c => cnt ≤ c
  | none => false

/-- The break condition of the math-block inner loop: a labelled `$$ {#id}`
closer or a plain `$$` line. -/
def isMathBreak (l : List Char) : Bool :=
  (matchMathCloseLabel (pyStrip l)).isSome || matchMathOpen (pyStrip l)

/-- Model of `n` executions of `output_lines.pop()`: fails (Python `IndexError`) when
the list runs out. -/
def popN : Nat → List (List Char) → Option (List (List Char))
  | 0, l => some l
  | _ + 1, [] => none
  | n + 1, l@(_ :: _) => popN n l.dropLast

/-- The mutable state of `convert_quarto_to_myst`'s loop. -/
structure QState where
  output : List (List Char)
  tableBuffer : List (List Char)
  inTable : Bool
deriving DecidableEq

/-- The dispatch loop of `convert_quarto_to_myst`.  Every iteration consumes
at least one input line, so a fuel equal to the number of lines suffices;
exhausted fuel with input remaining yields `none` (proved unreachable), as
does the one fallible operation, the `output_lines.pop()` of the
table-caption branch. -/
def goQuarto : Nat → List (List Char) → QState → Option (List (List Char))
  | _, [], st => some st.output
  | 0, _ :: _, _ => none
  | fuel + 1, line :: ls, st =>
    let stripped := pyStrip line
    match execCheck stripped with
    | some (cnt, lang) =>
      let body := ls.takeWhile (fun x => ¬ closesBacktickGE cnt x)
      let rest := ls.dropWhile (fun x => ¬ closesBacktickGE cnt x)
      let pr := parseCellOptions body
      goQuarto fuel rest.tail { st with output := st.output ++ buildCodeCell lang pr.1 pr.2 }
    | none =>
    match matchCallout stripped with
    | some (cnt, typ, title) =>
      let body := ls.takeWhile (fun x => ¬ closesColonGE cnt x)
      let rest := ls.dropWhile (fun x => ¬ closesColonGE cnt x)
      goQuarto fuel rest.tail { st with output := st.output ++ buildAdmonition typ title body }
    | none =>
    match matchTabset stripped with
    | some cnt =>
      let body := ls.takeWhile (fun x => ¬ closesColonGE cnt x)
      let rest := ls.dropWhile (fun x => ¬ closesColonGE cnt x)
      goQuarto fuel rest.tail { st with output := st.output ++ buildTabSet body }
    | none =>
    match matchMargin stripped with
    | some cnt =>
      let body := ls.takeWhile (fun x => ¬ closesColonGE cnt x)
      let rest := ls.dropWhile (fun x => ¬ closesColonGE cnt x)
      goQuarto fuel rest.tail { st with output := st.output ++ buildMargin body }
    | none =>
    match matchImgAttrs stripped with
    | some (alt, url, attrStr) =>
      let pa := parseImageAttrs attrStr
      let outLines :=
        if pa.1.any (fun i => (sl "fig-").isPrefixOf i) then
          buildFigureDirective alt url pa.1 pa.2
        else if pa.1.isSome || pa.2.isSome then
          buildImageDirective alt url pa.2
        else [transformQuartoInline line]
      goQuarto fuel ls { st with output := st.output ++ outLines }
    | none =>
    if matchMathOpen stripped then
      let body := ls.takeWhile (fun x => ¬ isMathBreak x)
      let rest := ls.dropWhile (fun x => ¬ isMathBreak x)
      let label :=
        match rest.head? with
        | some h => (matchMathCloseLabel (pyStrip h)).getD []
        | none => []
      let outLines :=
        if label ≠ [] then buildMathDirective label body
        else [sl "$$"] ++ body ++ [sl "$$"]
      goQuarto fuel rest.tail { st with output := st.output ++ outLines }
    else
    match matchTableCaption stripped, st.inTable with
    | some (cap, name), true =>
      match popN st.tableBuffer.length st.output with
      | some out2 =>
        goQuarto fuel ls
          { output := out2 ++ buildTableDirective (pyStrip cap) name st.tableBuffer,
            tableBuffer := [], inTable := false }
      | none => none
    | _, _ =>
    if matchTableRow stripped then
      if st.inTable then
        goQuarto fuel ls
          { st with tableBuffer := st.tableBuffer ++ [line], output := st.output ++ [line] }
      else
        goQuarto fuel ls
          { output := st.output ++ [line], tableBuffer := [line], inTable := true }
    else
      let st2 :=
        if st.inTable ∧ stripped ≠ [] then { st with inTable := false, tableBuffer := [] }
        else st
      goQuarto fuel ls { st2 with output := st2.output ++ [transformQuartoInline line] }

/-- Source `convert_quarto_to_myst`: the public Quarto-to-MyST conversion.  The
result is an `Option` because of the fallible `output_lines.pop()` calls in
the table-caption branch (and the fuel, both proved never to fail). -/
def convert_quarto_to_myst? (text : String) : Option String :=
  let lines := splitChar '\n' text.toList
  (goQuarto lines.length lines { output := [], tableBuffer := [], inTable := false }).map
    (fun out => String.mk (joinNL out))

/-! ## Helper lemmas -/

/-- Inverting `_is_close_fence`: a successful close line is non-empty and
consists solely of the frame's fence character. -/
theorem isCloseFence_all {s : List Char} {ind : Nat} {f : DirectiveFrame}
    (h : isCloseFence s ind f = true) : s ≠ [] ∧ ∀ x ∈ s, x = f.fenceChar := by
  cases s with
  | nil => simp [isCloseFence] at h
  | cons c cs =>
    refine ⟨by simp, ?_⟩
    simp only [isCloseFence] at h
    by_cases h1 : c ≠ f.fenceChar
    · rw [if_pos h1] at h; cases h
    · rw [if_neg h1] at h
      by_cases h2 : ¬((c :: cs).all (· = f.fenceChar) = true)
      · rw [if_pos h2] at h; cases h
      · have hall := not_not.mp h2
        simp only [List.all_eq_true, decide_eq_true_eq] at hall
        exact hall

/-- A line whose whitespace-stripped remainder is a non-empty run of one
repeated character never matches a directive opening fence (which requires a
brace after the fence run). -/
theorem matchOpenFence_eq_none_of_allsame (fc d : Char) (line : List Char)
    (hne : pyLstrip line ≠ []) (hall : ∀ x ∈ pyLstrip line, x = d) :
    matchOpenFence fc line = none := by
  by_cases hfd : d = fc
  · subst hfd
    have h1 : (line.dropWhile isPySpace).takeWhile (fun x => decide (x = d)) =
        line.dropWhile isPySpace := by
      rw [List.takeWhile_eq_self_iff]
      intro x hx
      exact decide_eq_true (hall x hx)
    simp only [matchOpenFence, h1, List.drop_length]
    split
    · rfl
    · rfl
  · obtain ⟨x, xs, hx⟩ := List.exists_cons_of_ne_nil hne
    have hxd : x = d := hall x (by rw [hx]; exact List.mem_cons_self x xs)
    have hdec : (decide (x = fc)) = false := by
      subst hxd; exact decide_eq_false hfd
    simp only [matchOpenFence, pyLstrip] at hx ⊢
    rw [hx, List.takeWhile_cons, hdec]
    simp

/-- A valid close line for a frame is never a directive opener. -/
theorem openMatch_eq_none_of_close {line : List Char} {f : DirectiveFrame}
    {ind : Nat} (h : isCloseFence (pyLstrip line) ind f = true) :
    openMatch line = none := by
  obtain ⟨hne, hall⟩ := isCloseFence_all h
  simp only [openMatch,
    matchOpenFence_eq_none_of_allsame bq f.fenceChar line hne hall,
    matchOpenFence_eq_none_of_allsame ':' f.fenceChar line hne hall,
    Option.none_orElse]

/-- Inverting `_TABLE_CAPTION_RE`: a successful match implies the stripped
line starts with a colon followed by whitespace, and the captured name
carries the `tbl-` prefix. -/
theorem matchTableCaption_inv {s cap name : List Char}
    (h : matchTableCaption s = some (cap, name)) :
    (∃ w r1, s = ':' :: w :: r1 ∧ isPySpace w = true) ∧
      (sl "tbl-").isPrefixOf name = true := by
  cases s with
  | nil => simp [matchTableCaption] at h
  | cons c r0 =>
    simp only [matchTableCaption] at h
    by_cases hc : c = ':'
    case neg => rw [if_neg hc] at h; cases h
    case pos =>
      rw [if_pos hc] at h
      subst hc
      obtain ⟨wlen, hwmem, hw⟩ := List.exists_of_findSome?_eq_some h
      obtain ⟨clen, hcmem, hcl⟩ := List.exists_of_findSome?_eq_some hw
      constructor
      · have hpos : 0 < (r0.takeWhile isPySpace).length := by
          rcases Nat.eq_zero_or_pos (r0.takeWhile isPySpace).length with hz | hp
          · rw [hz] at hwmem; simp at hwmem
          · exact hp
        cases hr0 : r0 with
        | nil => rw [hr0] at hpos; simp at hpos
        | cons w r1 =>
          refine ⟨w, r1, rfl, ?_⟩
          by_contra hpw
          rw [hr0, List.takeWhile_cons] at hpos
          simp [hpw] at hpos
      · split_ifs at hcl with h1 h2
        obtain ⟨-, hname⟩ := Prod.mk.injEq .. ▸ Option.some.injEq .. ▸ hcl
        rw [← hname, List.isPrefixOf_iff_prefix]
        exact ⟨_, rfl⟩

/-- A line not starting with a backtick never matches `_EXEC_CODE_RE`. -/
theorem matchExecCode_eq_none_of_head {c : Char} {r : List Char} (hc : ¬ c = bq) :
    matchExecCode (c :: r) = none := by
  simp [matchExecCode, List.takeWhile_cons, hc]

/-- A stripped line `: ...` (one colon, then whitespace) has a colon run of
length one, too short for any `:{3,}` construct opener. -/
theorem colonRun_one {w : Char} {r : List Char} (hw : ¬ w = ':') :
    (':' :: w :: r).takeWhile (fun x => decide (x = ':')) = [':'] := by
  simp [List.takeWhile_cons, hw]

/-- Prefix test against a cons with a different head character. -/
theorem isPrefixOf_cons_of_ne {a b : Char} {l1 l2 : List Char} (h : ¬ a = b) :
    (a :: l1).isPrefixOf (b :: l2) = false := by
  simp [List.isPrefixOf, h]

/-- After a construct's inner collection loop, the cursor lands at most one
past the lines that were available: the suffix after dropping the body and
the closing line is no longer than the original tail. -/
theorem tailDropWhile_le (p : List Char → Bool) (l : List (List Char)) :
    ((l.dropWhile p).tail).length ≤ l.length := by
  have h1 := (List.dropWhile_sublist (p := p) (l := l)).length_le
  have h2 := List.length_tail (l.dropWhile p)
  omega

/-- Doing `n` pops from a list of at least `n` elements always succeed. -/
theorem popN_isSome {n : Nat} {l : List (List Char)} (h : n ≤ l.length) :
    ∃ l2, popN n l = some l2 := by
  induction n generalizing l with
  | zero => exact ⟨l, rfl⟩
  | succ n ih =>
    cases l with
    | nil => simp at h
    | cons a as =>
      have hlen : n ≤ ((a :: as).dropLast).length := by
        simp only [List.length_dropLast, List.length_cons] at h ⊢
        omega
      simpa [popN] using ih hlen

/-- Totality of the reverse dispatch loop: with fuel at least the number of
remaining lines and the table buffer no longer than the output (the lines of
the buffer were all also appended to the output since the buffer last
started), the loop always produces a result — the fuel never runs out (every
iteration consumes at least one line) and the `output_lines.pop()` calls of
the caption branch never fail. -/
theorem goQuarto_isSome (fuel : Nat) : ∀ (lines : List (List Char)) (st : QState),
    lines.length ≤ fuel → st.tableBuffer.length ≤ st.output.length →
    (goQuarto fuel lines st).isSome = true := by
  induction fuel with
  | zero =>
    intro lines st hlen _
    cases lines with
    | nil => rfl
    | cons l ls => simp at hlen
  | succ fuel ih =>
    intro lines st hlen hinv
    cases lines with
    | nil => rfl
    | cons l ls =>
      have hls : ls.length ≤ fuel := by
        simp only [List.length_cons] at hlen
        omega
      simp only [goQuarto]
      split
      · -- executable code block
        exact ih _ _ ((tailDropWhile_le _ _).trans hls)
          (by simp only [List.length_append]; omega)
      · split
        · -- callout
          exact ih _ _ ((tailDropWhile_le _ _).trans hls)
            (by simp only [List.length_append]; omega)
        · split
          · -- panel-tabset
            exact ih _ _ ((tailDropWhile_le _ _).trans hls)
              (by simp only [List.length_append]; omega)
          · split
            · -- column-margin
              exact ih _ _ ((tailDropWhile_le _ _).trans hls)
                (by simp only [List.length_append]; omega)
            · split
              · -- image with attributes
                exact ih _ _ hls (by simp only [List.length_append]; omega)
              · split
                · -- math block
                  exact ih _ _ ((tailDropWhile_le _ _).trans hls)
                    (by simp only [List.length_append]; omega)
                · split
                  · -- table caption while buffering: the pop succeeds
                    rename_i hpop
                    split
                    · exact ih _ _ hls (by simp)
                    · rename_i hnone
                      obtain ⟨l2, hl2⟩ := popN_isSome hinv
                      rw [hl2] at hnone
                      cases hnone
                  · split
                    · split
                      · -- table row, already buffering
                        exact ih _ _ hls
                          (by simp only [List.length_append]; omega)
                      · -- table row, buffering starts
                        exact ih _ _ hls
                          (by simp only [List.length_append]; omega)
                    · -- plain line
                      split
                      · exact ih _ _ hls (by simp)
                      · exact ih _ _ hls
                          (by simp only [List.length_append]; omega)

/-- Splitting never yields an empty list of pieces. -/
theorem splitChar_ne_nil (sep : Char) (l : List Char) : splitChar sep l ≠ [] := by
  induction l with
  | nil => simp [splitChar]
  | cons c cs ih =>
    simp only [splitChar]
    split <;> (try split) <;> simp

/-- Splitting a separator-free list is the identity (one piece). -/
theorem splitChar_no_sep {sep : Char} {l : List Char} (h : sep ∉ l) :
    splitChar sep l = [l] := by
  induction l with
  | nil => rfl
  | cons c cs ih =>
    have hc : ¬ c = sep := by
      intro he
      subst he
      exact h (List.mem_cons_self c cs)
    have hcs : sep ∉ cs := fun hm => h (List.mem_cons_of_mem c hm)
    simp [splitChar, ih hcs, hc]

/-- Splitting peels one separator-free piece before a separator. -/
theorem splitChar_append_sep {sep : Char} {l t : List Char} (h : sep ∉ l) :
    splitChar sep (l ++ sep :: t) = l :: splitChar sep t := by
  induction l with
  | nil =>
    cases hs : splitChar sep t with
    | nil => exact absurd hs (splitChar_ne_nil sep t)
    | cons x xs => simp [splitChar, hs]
  | cons c cs ih =>
    have hc : ¬ c = sep := by
      intro he
      subst he
      exact h (List.mem_cons_self c cs)
    have hcs : sep ∉ cs := fun hm => h (List.mem_cons_of_mem c hm)
    rw [List.cons_append]
    simp only [splitChar, ih hcs, hc]
    simp

/-- Splitting on newlines is a left inverse of joining, for a non-empty list
of newline-free lines. -/
theorem splitNL_joinNL {ls : List (List Char)} (hne : ls ≠ [])
    (h : ∀ l ∈ ls, '\n' ∉ l) : splitChar '\n' (joinNL ls) = ls := by
  induction ls with
  | nil => exact absurd rfl hne
  | cons l rest ih =>
    cases rest with
    | nil =>
      have h1 : joinNL [l] = l := by simp [joinNL, List.intercalate, List.intersperse]
      rw [h1]
      exact splitChar_no_sep (h l (List.mem_cons_self l []))
    | cons l2 rest2 =>
      have h1 : joinNL (l :: l2 :: rest2) = l ++ '\n' :: joinNL (l2 :: rest2) := by
        simp [joinNL, List.intercalate, List.intersperse]
      rw [h1, splitChar_append_sep (h l (List.mem_cons_self l _)),
        ih (by simp) (fun x hx => h x (List.mem_cons_of_mem l hx))]

/-- Open step of `Scanner.scan`: a directive opener (outside a regular code
fence) pushes a fresh frame and enters options mode; the output is not
touched. -/
theorem scanStep_open (tf : DirectiveFrame → List (List Char))
    (inl : List Char → List Char) (st : ScanState) (line : List Char)
    (fc : Char) (ind cnt : Nat) (nm arg : List Char)
    (hopen : openMatch line = some (fc, ind, cnt, nm, arg))
    (hrf : st.inRegularFence = false) :
    scanStep tf inl st line =
      { st with stack := DirectiveFrame.mk nm fc cnt arg [] [] ind :: st.stack,
                inOptions := true } := by
  simp only [scanStep, hopen, hrf]

/-- Top-level close step of `Scanner.scan`: closing the only open frame
transforms it and appends the transformed lines to the output. -/
theorem scanStep_close_top (tf : DirectiveFrame → List (List Char))
    (inl : List Char → List Char) (st : ScanState) (line : List Char)
    (A : DirectiveFrame) (hstack : st.stack = [A])
    (hclose : isCloseFence (pyLstrip line) (line.length - (pyLstrip line).length) A = true) :
    scanStep tf inl st line =
      { st with stack := [], output := st.output ++ tf A, inOptions := false } := by
  have hopen := openMatch_eq_none_of_close (f := A) hclose
  cases hrf : st.inRegularFence <;>
    simp only [scanStep, hopen, hstack, hclose, hrf, if_true]

/-- Body step of `Scanner.scan`: a line inside a directive that is not an
opener, not a close fence for the current frame, not an option line and not
blank is appended (indent-stripped) to the current frame's body, leaving
options mode if it was active; the output is not touched. -/
theorem scanStep_body (tf : DirectiveFrame → List (List Char))
    (inl : List Char → List Char) (st : ScanState) (c : DirectiveFrame)
    (rest : List DirectiveFrame) (line : List Char)
    (hstack : st.stack = c :: rest)
    (hopen : openMatch line = none)
    (hclose : isCloseFence (pyLstrip line) (line.length - (pyLstrip line).length) c = false)
    (hopt : matchOption (pyStrip (stripIndent line c.indent)) = none)
    (hblank : pyStrip (stripIndent line c.indent) ≠ []) :
    scanStep tf inl st line =
      { st with inOptions := false,
                stack := { c with bodyLines := c.bodyLines ++ [stripIndent line c.indent] } :: rest } := by
  obtain ⟨stk, io, irf, rfc, rcc, rfi, out⟩ := st
  simp only at hstack
  subst hstack
  cases io <;> cases irf <;> simp [scanStep, hopen, hclose, hopt, hblank]

/-- Run of body lines: folding the scanner over consecutive body lines (none
of which opens, closes, is an option line, or is blank) appends them all,
indent-stripped, to the current frame's body; the rest of the state is
untouched except that options mode is off once at least one line was seen. -/
theorem foldl_body_run (tf : DirectiveFrame → List (List Char))
    (inl : List Char → List Char) :
    ∀ (ls : List (List Char)) (st : ScanState) (c : DirectiveFrame)
      (rest : List DirectiveFrame),
    st.stack = c :: rest →
    (∀ l ∈ ls, openMatch l = none ∧
      isCloseFence (pyLstrip l) (l.length - (pyLstrip l).length) c = false ∧
      matchOption (pyStrip (stripIndent l c.indent)) = none ∧
      pyStrip (stripIndent l c.indent) ≠ []) →
    ls.foldl (scanStep tf inl) st =
      { st with
        inOptions := if ls.isEmpty then st.inOptions else false,
        stack := { c with bodyLines := c.bodyLines ++ ls.map (fun l => stripIndent l c.indent) } :: rest } := by
  intro ls
  induction ls with
  | nil =>
    intro st c rest hstack _
    simp only [List.foldl_nil, List.map_nil, List.append_nil, List.isEmpty_nil, if_true]
    rw [← hstack]
  | cons l ls' ih =>
    intro st c rest hstack hall
    obtain ⟨ho, hc, hop, hb⟩ := hall l (List.mem_cons_self l ls')
    rw [List.foldl_cons, scanStep_body tf inl st c rest l hstack ho hc hop hb]
    rw [ih _ ({ c with bodyLines := c.bodyLines ++ [stripIndent l c.indent] }) rest rfl
      (fun x hx => hall x (List.mem_cons_of_mem l hx))]
    simp [List.append_assoc]

/-! ## Theorems -/

/-- C1: a line closes a directive frame (fence character `C`, fence length
`L ≥ 3`, indentation `N`) exactly when its whitespace-stripped content is
non-empty and consists solely of `C`, repeated at least `L` times, at an
indentation of at most `N`; consequently a line with a different character
anywhere in its stripped content, or with fewer than `L` repetitions, never
closes the frame. -/
theorem c1_close_fence_iff (s : List Char) (ind : Nat) (f : DirectiveFrame)
    (_h3 : 3 ≤ f.fenceCount) :
    isCloseFence s ind f = true ↔
      (s ≠ [] ∧ (∀ c ∈ s, c = f.fenceChar) ∧ f.fenceCount ≤ s.length ∧ ind ≤ f.indent) := by
  cases s with
  | nil => simp [isCloseFence]
  | cons c cs =>
    simp only [isCloseFence]
    split_ifs with h1 h2 hlen hind
    · rw [false_iff]
      rintro ⟨-, hall, -, -⟩
      exact h1 (hall c (List.mem_cons_self c cs))
    · rw [false_iff]
      rintro ⟨-, -, hlen2, -⟩
      omega
    · rw [false_iff]
      rintro ⟨-, -, -, hind2⟩
      omega
    · simp only [List.all_eq_true, decide_eq_true_eq] at h2
      exact iff_of_true rfl ⟨by simp, h2, by omega, by omega⟩
    · rw [false_iff]
      rintro ⟨-, hall, -, -⟩
      exact h2 (by simp only [List.all_eq_true, decide_eq_true_eq]; exact hall)

/-- Witness for `c1_close_fence_iff` at a concrete frame and line. -/
theorem c1_close_fence_iff_witness :
    3 ≤ (DirectiveFrame.mk (sl "note") bq 3 [] [] [] 0).fenceCount ∧
      (isCloseFence (sl "````") 0 (DirectiveFrame.mk (sl "note") bq 3 [] [] [] 0) = true ↔
        (sl "````" ≠ [] ∧ (∀ c ∈ sl "````", c = (DirectiveFrame.mk (sl "note") bq 3 [] [] [] 0).fenceChar) ∧
          (DirectiveFrame.mk (sl "note") bq 3 [] [] [] 0).fenceCount ≤ (sl "````").length ∧
          0 ≤ (DirectiveFrame.mk (sl "note") bq 3 [] [] [] 0).indent)) :=
  ⟨by decide, c1_close_fence_iff (sl "````") 0 (DirectiveFrame.mk (sl "note") bq 3 [] [] [] 0) (by decide)⟩

/-- C3 (counterexample): on the unterminated nested input
`` ```{note}\n::::{tip}\nX ``, the end-of-input flush appends the inner
frame's transformed lines directly to the output, followed by the outer
frame's (with an empty body) — it does not embed the inner output in the
outer frame's body as the claim states, which would have produced the second
string. -/
theorem c3_unclosed_nested_counterexample :
    convert_myst_to_quarto "```\x7bnote\x7d\n::::\x7btip\x7d\nX" =
      "::: \x7b.callout-tip\x7d\nX\n:::\n::: \x7b.callout-note\x7d\n:::" ∧
    "::: \x7b.callout-tip\x7d\nX\n:::\n::: \x7b.callout-note\x7d\n:::" ≠
      "::: \x7b.callout-note\x7d\n::: \x7b.callout-tip\x7d\nX\n:::\n:::" := by
  constructor
  · rfl
  · decide

/-- C3 (amended): at end of input, the still-open frames are popped in LIFO
order (most recently opened first), each is transformed, and the transformed
lines are appended directly to the final output — also in the nested case,
where the source never adds them to the parent frame's body; no exception is
raised. -/
theorem c3_unclosed_frames_flush (tf : DirectiveFrame → List (List Char))
    (stack : List DirectiveFrame) (out : List (List Char)) :
    scanFinish tf stack out = out ++ (stack.map tf).flatten := by
  induction stack generalizing out with
  | nil => simp [scanFinish]
  | cons f rest ih => simp [scanFinish, ih, List.append_assoc]

/-- C9: round-trip of the note admonition.  Forward conversion of
`` ```{note}\nHello.\n``` `` yields the fixed-class callout wrapper with body
`Hello.`, and reverse conversion of that output recovers the original MyST
construct literally. -/
theorem c9_note_roundtrip :
    convert_myst_to_quarto "```\x7bnote\x7d\nHello.\n```" =
      "::: \x7b.callout-note\x7d\nHello.\n:::" ∧
    convert_quarto_to_myst? "::: \x7b.callout-note\x7d\nHello.\n:::" =
      some "```\x7bnote\x7d\nHello.\n```" := by
  constructor
  · rfl
  · rfl

/-- C10: both public conversion functions are the identity on the empty
document. -/
theorem c10_empty_document :
    convert_myst_to_quarto "" = "" ∧ convert_quarto_to_myst? "" = some "" := by
  constructor
  · rfl
  · rfl

/-- C5 (counterexample): in `` ```{note}\n:a: 1\n\n:b: 2\n``` `` the blank
line ends the options section, so the later `:b: 2` line becomes a body line
(it appears in the callout body).  Under the claim it would still be an
option and the body would be empty, producing the second string. -/
theorem c5_blank_line_counterexample :
    convert_myst_to_quarto "```\x7bnote\x7d\n:a: 1\n\n:b: 2\n```" =
      "::: \x7b.callout-note\x7d\n:b: 2\n:::" ∧
    "::: \x7b.callout-note\x7d\n:b: 2\n:::" ≠ "::: \x7b.callout-note\x7d\n:::" := by
  constructor
  · rfl
  · decide

/-- C6 (counterexample): in the reverse direction a line lying between a
plain code fence's opening and closing lines is not copied through
byte-identical: the callout opener inside the plain fence is interpreted as a
construct and transformed (the output contains `` ```{note} `` where the
input had the raw callout line). -/
theorem c6_reverse_fence_counterexample :
    convert_quarto_to_myst? "```\n::: \x7b.callout-note\x7d\nHi\n:::\n```" =
      some "```\n```\x7bnote\x7d\nHi\n```\n```" ∧
    (splitChar '\n' (sl "```\n```\x7bnote\x7d\nHi\n```\n```")).contains (sl "::: \x7b.callout-note\x7d") = false := by
  constructor
  · rfl
  · rfl

/-- C7 (code bug, evaluation at the failing input): with a blank line between
the table rows and the caption line, the buffered rows are not the tail of
the emitted output (the tail is the rows followed by the blank line), so the
pop loop removes the blank line instead of the first row: the raw `| a |`
remains in the output before the wrapped table that repeats it, and the blank
line is lost. -/
theorem c7_blank_line_bug_eval :
    convert_quarto_to_myst? "| a |\n\n: Cap \x7b#tbl-x\x7d" =
      some "| a |\n```\x7btable\x7d Cap\n:name: tbl-x\n\n| a |\n```" := by
  rfl

/-- C8 (counterexample): a caption line whose id lacks the `tbl-` prefix does
not wrap the buffered table rows at all — `_TABLE_CAPTION_RE` requires a
`tbl-`-prefixed id, so `: Cap {#foo-x}` falls through as a plain line and the
raw row stays in place; no table construct appears in the output. -/
theorem c8_no_prefix_counterexample :
    convert_quarto_to_myst? "| a |\n: Cap \x7b#foo-x\x7d" =
      some "| a |\n: Cap \x7b#foo-x\x7d" ∧
    (splitChar '\n' (sl "| a |\n: Cap \x7b#foo-x\x7d")).all
      (fun l => !((sl "```\x7btable\x7d").isPrefixOf l)) = true := by
  constructor
  · rfl
  · rfl

/-- Nested-close step of `Scanner.scan`: processing the closing fence of a
construct `B` whose frame sits on the stack above its enclosing construct
`A` pops `B`, transforms it, and appends the transformed lines to `A`'s
body; nothing is emitted to the output in this step. -/
theorem scanStep_close_nested (tf : DirectiveFrame → List (List Char))
    (inl : List Char → List Char) (st : ScanState) (line : List Char)
    (B A : DirectiveFrame) (rest : List DirectiveFrame)
    (hstack : st.stack = B :: A :: rest)
    (hclose : isCloseFence (pyLstrip line) (line.length - (pyLstrip line).length) B = true) :
    scanStep tf inl st line =
      { st with stack := { A with bodyLines := A.bodyLines ++ tf B } :: rest,
                inOptions := false } := by
  have hopen := openMatch_eq_none_of_close (f := B) hclose
  cases hrf : st.inRegularFence <;>
    simp only [scanStep, hopen, hstack, hclose, hrf, if_true]

/-- C2: forward conversion of a document holding a construct `A` whose body
fully contains a nested construct `B` — `B`'s opening and closing fences
both strictly between `A`'s fences — produces exactly `A`'s transformed
wrapper, with `B`'s transformed output lines embedded at `B`'s original
position inside `A`'s body (between `A`'s body lines that preceded and
followed `B`); since the output equals that single transform result, none of
`B`'s raw, untransformed fence/option/body syntax ever appears in it.  The
claim is quantified over both constructs' names, fence characters and
lengths, arguments, indents and body lines; the side conditions say exactly
that the body lines are ordinary lines (no opener, no closing fence, no
option line, not blank, newline-free) and that the two closing lines close
their respective frames. -/
theorem c2_nested_construct_output
    (openA openB closeB closeA : List Char) (bodyA1 bodyB bodyA2 : List (List Char))
    (fcA : Char) (indA cntA : Nat) (nmA argA : List Char)
    (fcB : Char) (indB cntB : Nat) (nmB argB : List Char)
    (hoA : openMatch openA = some (fcA, indA, cntA, nmA, argA))
    (hoB : openMatch openB = some (fcB, indB, cntB, nmB, argB))
    (hbA1 : ∀ l ∈ bodyA1, openMatch l = none ∧
      isCloseFence (pyLstrip l) (l.length - (pyLstrip l).length)
        (DirectiveFrame.mk nmA fcA cntA argA [] [] indA) = false ∧
      matchOption (pyStrip (stripIndent l indA)) = none ∧
      pyStrip (stripIndent l indA) ≠ [])
    (hbB : ∀ l ∈ bodyB, openMatch l = none ∧
      isCloseFence (pyLstrip l) (l.length - (pyLstrip l).length)
        (DirectiveFrame.mk nmB fcB cntB argB [] [] indB) = false ∧
      matchOption (pyStrip (stripIndent l indB)) = none ∧
      pyStrip (stripIndent l indB) ≠ [])
    (hcB : isCloseFence (pyLstrip closeB) (closeB.length - (pyLstrip closeB).length)
      (DirectiveFrame.mk nmB fcB cntB argB [] [] indB) = true)
    (hbA2 : ∀ l ∈ bodyA2, openMatch l = none ∧
      isCloseFence (pyLstrip l) (l.length - (pyLstrip l).length)
        (DirectiveFrame.mk nmA fcA cntA argA [] [] indA) = false ∧
      matchOption (pyStrip (stripIndent l indA)) = none ∧
      pyStrip (stripIndent l indA) ≠ [])
    (hcA : isCloseFence (pyLstrip closeA) (closeA.length - (pyLstrip closeA).length)
      (DirectiveFrame.mk nmA fcA cntA argA [] [] indA) = true)
    (hnl : ∀ l ∈ (openA :: bodyA1) ++ (openB :: bodyB) ++ (closeB :: bodyA2) ++ [closeA],
      '\n' ∉ l) :
    convert_myst_to_quarto (String.mk (joinNL
        ((openA :: bodyA1) ++ (openB :: bodyB) ++ (closeB :: bodyA2) ++ [closeA]))) =
      String.mk (joinNL (transformDirective (DirectiveFrame.mk nmA fcA cntA argA []
        (bodyA1.map (fun l => stripIndent l indA) ++
          transformDirective (DirectiveFrame.mk nmB fcB cntB argB []
            (bodyB.map (fun l => stripIndent l indB)) indB) ++
          bodyA2.map (fun l => stripIndent l indA)) indA))) := by
  have hsplit : splitChar '\n' (joinNL
      ((openA :: bodyA1) ++ (openB :: bodyB) ++ (closeB :: bodyA2) ++ [closeA])) =
      (openA :: bodyA1) ++ (openB :: bodyB) ++ (closeB :: bodyA2) ++ [closeA] :=
    splitNL_joinNL (by simp) hnl
  have e1 : scanStep transformDirective transformInline initScanState openA =
      ScanState.mk [DirectiveFrame.mk nmA fcA cntA argA [] [] indA] true false bq 0 0 [] := by
    rw [scanStep_open _ _ _ _ _ _ _ _ _ hoA rfl]
    rfl
  have e2 : bodyA1.foldl (scanStep transformDirective transformInline)
      (ScanState.mk [DirectiveFrame.mk nmA fcA cntA argA [] [] indA] true false bq 0 0 []) =
      ScanState.mk [DirectiveFrame.mk nmA fcA cntA argA []
          (bodyA1.map (fun l => stripIndent l indA)) indA]
        (if bodyA1.isEmpty then true else false) false bq 0 0 [] := by
    rw [foldl_body_run _ _ bodyA1 _ (DirectiveFrame.mk nmA fcA cntA argA [] [] indA) [] rfl hbA1]
    rfl
  have e3 : scanStep transformDirective transformInline
      (ScanState.mk [DirectiveFrame.mk nmA fcA cntA argA []
          (bodyA1.map (fun l => stripIndent l indA)) indA]
        (if bodyA1.isEmpty then true else false) false bq 0 0 []) openB =
      ScanState.mk [DirectiveFrame.mk nmB fcB cntB argB [] [] indB,
        DirectiveFrame.mk nmA fcA cntA argA []
          (bodyA1.map (fun l => stripIndent l indA)) indA] true false bq 0 0 [] := by
    rw [scanStep_open _ _ _ _ _ _ _ _ _ hoB rfl]
  have e4 : bodyB.foldl (scanStep transformDirective transformInline)
      (ScanState.mk [DirectiveFrame.mk nmB fcB cntB argB [] [] indB,
        DirectiveFrame.mk nmA fcA cntA argA []
          (bodyA1.map (fun l => stripIndent l indA)) indA] true false bq 0 0 []) =
      ScanState.mk [DirectiveFrame.mk nmB fcB cntB argB []
          (bodyB.map (fun l => stripIndent l indB)) indB,
        DirectiveFrame.mk nmA fcA cntA argA []
          (bodyA1.map (fun l => stripIndent l indA)) indA]
        (if bodyB.isEmpty then true else false) false bq 0 0 [] := by
    rw [foldl_body_run _ _ bodyB _ (DirectiveFrame.mk nmB fcB cntB argB [] [] indB)
      [DirectiveFrame.mk nmA fcA cntA argA []
        (bodyA1.map (fun l => stripIndent l indA)) indA] rfl hbB]
    rfl
  have e5 : scanStep transformDirective transformInline
      (ScanState.mk [DirectiveFrame.mk nmB fcB cntB argB []
          (bodyB.map (fun l => stripIndent l indB)) indB,
        DirectiveFrame.mk nmA fcA cntA argA []
          (bodyA1.map (fun l => stripIndent l indA)) indA]
        (if bodyB.isEmpty then true else false) false bq 0 0 []) closeB =
      ScanState.mk [DirectiveFrame.mk nmA fcA cntA argA []
          (bodyA1.map (fun l => stripIndent l indA) ++
            transformDirective (DirectiveFrame.mk nmB fcB cntB argB []
              (bodyB.map (fun l => stripIndent l indB)) indB)) indA]
        false false bq 0 0 [] := by
    rw [scanStep_close_nested _ _ _ closeB
      (DirectiveFrame.mk nmB fcB cntB argB [] (bodyB.map (fun l => stripIndent l indB)) indB)
      (DirectiveFrame.mk nmA fcA cntA argA [] (bodyA1.map (fun l => stripIndent l indA)) indA)
      [] rfl hcB]
  have e6 : bodyA2.foldl (scanStep transformDirective transformInline)
      (ScanState.mk [DirectiveFrame.mk nmA fcA cntA argA []
          (bodyA1.map (fun l => stripIndent l indA) ++
            transformDirective (DirectiveFrame.mk nmB fcB cntB argB []
              (bodyB.map (fun l => stripIndent l indB)) indB)) indA]
        false false bq 0 0 []) =
      ScanState.mk [DirectiveFrame.mk nmA fcA cntA argA []
          (bodyA1.map (fun l => stripIndent l indA) ++
            transformDirective (DirectiveFrame.mk nmB fcB cntB argB []
              (bodyB.map (fun l => stripIndent l indB)) indB) ++
            bodyA2.map (fun l => stripIndent l indA)) indA]
        false false bq 0 0 [] := by
    rw [foldl_body_run _ _ bodyA2 _
      (DirectiveFrame.mk nmA fcA cntA argA []
        (bodyA1.map (fun l => stripIndent l indA) ++
          transformDirective (DirectiveFrame.mk nmB fcB cntB argB []
            (bodyB.map (fun l => stripIndent l indB)) indB)) indA) [] rfl hbA2]
    simp only [ite_self]
  have e7 : scanStep transformDirective transformInline
      (ScanState.mk [DirectiveFrame.mk nmA fcA cntA argA []
          (bodyA1.map (fun l => stripIndent l indA) ++
            transformDirective (DirectiveFrame.mk nmB fcB cntB argB []
              (bodyB.map (fun l => stripIndent l indB)) indB) ++
            bodyA2.map (fun l => stripIndent l indA)) indA]
        false false bq 0 0 []) closeA =
      ScanState.mk [] false false bq 0 0
        ([] ++ transformDirective (DirectiveFrame.mk nmA fcA cntA argA []
          (bodyA1.map (fun l => stripIndent l indA) ++
            transformDirective (DirectiveFrame.mk nmB fcB cntB argB []
              (bodyB.map (fun l => stripIndent l indB)) indB) ++
            bodyA2.map (fun l => stripIndent l indA)) indA)) := by
    rw [scanStep_close_top _ _ _ closeA
      (DirectiveFrame.mk nmA fcA cntA argA []
        (bodyA1.map (fun l => stripIndent l indA) ++
          transformDirective (DirectiveFrame.mk nmB fcB cntB argB []
            (bodyB.map (fun l => stripIndent l indB)) indB) ++
          bodyA2.map (fun l => stripIndent l indA)) indA) rfl hcA]
  simp only [convert_myst_to_quarto, scanText]
  rw [show (String.mk (joinNL
      ((openA :: bodyA1) ++ (openB :: bodyB) ++ (closeB :: bodyA2) ++ [closeA]))).toList =
      joinNL ((openA :: bodyA1) ++ (openB :: bodyB) ++ (closeB :: bodyA2) ++ [closeA]) from rfl]
  rw [hsplit, List.foldl_append, List.foldl_append, List.foldl_append,
    List.foldl_cons (l := bodyA1) (b := initScanState), e1, e2,
    List.foldl_cons (l := bodyB), e3, e4,
    List.foldl_cons (l := bodyA2), e5, e6,
    List.foldl_cons (l := ([] : List (List Char))), e7, List.foldl_nil]
  rfl

/-- Witness for `c2_nested_construct_output`: a `tip` admonition fully nested
in a `note` admonition, with body lines of `A` before and after `B`. -/
theorem c2_nested_construct_output_witness :
    convert_myst_to_quarto "```\x7bnote\x7d\nHello.\n:::\x7btip\x7d\nWorld\n:::\nBye\n```" =
      "::: \x7b.callout-note\x7d\nHello.\n::: \x7b.callout-tip\x7d\nWorld\n:::\nBye\n:::" := by
  have h := c2_nested_construct_output
    (sl "```\x7bnote\x7d") (sl ":::\x7btip\x7d") (sl ":::") (sl "```")
    [sl "Hello."] [sl "World"] [sl "Bye"]
    bq 0 3 (sl "note") [] ':' 0 3 (sl "tip") []
    (by decide) (by decide)
    (fun l hl => by
      rw [List.mem_singleton] at hl
      subst hl
      exact ⟨by decide, by decide, by decide, by decide⟩)
    (fun l hl => by
      rw [List.mem_singleton] at hl
      subst hl
      exact ⟨by decide, by decide, by decide, by decide⟩)
    (by decide)
    (fun l hl => by
      rw [List.mem_singleton] at hl
      subst hl
      exact ⟨by decide, by decide, by decide, by decide⟩)
    (by decide) (by decide)
  exact h.trans (by decide)

/-- C6 (amended): in the forward direction, a line inside an active plain
code fence that does not validly close it is appended to the output
byte-identical — it is never matched as a directive opener or closer, the
directive stack stays empty, and the inline rewriter is not applied.  (The
reverse converter tracks no plain fences, so there the property fails; see
the counterexample.) -/
theorem c6_forward_fence_inert (tf : DirectiveFrame → List (List Char))
    (inl : List Char → List Char) (st : ScanState) (line : List Char)
    (hstack : st.stack = []) (hfence : st.inRegularFence = true)
    (hnc : regularFenceCloses st line = false) :
    scanStep tf inl st line = { st with output := st.output ++ [line] } := by
  cases hop : openMatch line <;>
    simp [scanStep, hop, hstack, hfence, hnc]

/-- Witness for `c6_forward_fence_inert`: inside a plain backtick fence, a
line that spells a directive opener is copied through untouched. -/
theorem c6_forward_fence_inert_witness :
    (ScanState.mk [] false true bq 3 0 [sl "```"]).stack = [] ∧
    (ScanState.mk [] false true bq 3 0 [sl "```"]).inRegularFence = true ∧
    regularFenceCloses (ScanState.mk [] false true bq 3 0 [sl "```"]) (sl "```\x7bnote\x7d") = false ∧
    scanStep transformDirective transformInline
      (ScanState.mk [] false true bq 3 0 [sl "```"]) (sl "```\x7bnote\x7d") =
      { ScanState.mk [] false true bq 3 0 [sl "```"] with
        output := (ScanState.mk [] false true bq 3 0 [sl "```"]).output ++ [sl "```\x7bnote\x7d"] } :=
  ⟨rfl, rfl, by decide,
    c6_forward_fence_inert transformDirective transformInline _ (sl "```\x7bnote\x7d")
      rfl rfl (by decide)⟩

/-- C5 (amended): the options section is populated from the option-pattern
lines immediately following an opening fence, but it ends at the *first*
non-matching line, blank or not: a blank line while in options mode leaves
options mode (the blank itself is skipped and added nowhere), and any later
non-opening, non-closing line — in particular a `:key: value` line — is
recorded as a body line of the current frame, not as an option. -/
theorem c5_blank_ends_options (tf : DirectiveFrame → List (List Char))
    (inl : List Char → List Char) (st : ScanState) (c : DirectiveFrame)
    (rest : List DirectiveFrame) (line : List Char)
    (hstack : st.stack = c :: rest) (hopts : st.inOptions = true)
    (hopen : openMatch line = none)
    (hclose : isCloseFence (pyLstrip line) (line.length - (pyLstrip line).length) c = false) :
    scanStep tf inl (scanStep tf inl st []) line =
      { st with inOptions := false,
                stack := { c with bodyLines := c.bodyLines ++ [stripIndent line c.indent] } :: rest } := by
  have hinner : scanStep tf inl st [] = { st with inOptions := false } := by
    cases hrf : st.inRegularFence <;>
      simp [scanStep, hstack, hopts, hrf, openMatch, matchOpenFence, isCloseFence,
        stripIndent, matchOption, pyStrip, pyLstrip, pyRstrip, List.drop_nil, ite_self]
  rw [hinner]
  cases hrf : st.inRegularFence <;>
    simp only [scanStep, hopen, hclose, hstack, hrf, Bool.false_eq_true, if_false,
      if_true, ite_self]

/-- Witness for `c5_blank_ends_options`: a `note` frame in options mode, a
blank line, then the option-shaped line `:b: 2`, which lands in the body. -/
theorem c5_blank_ends_options_witness :
    (ScanState.mk [DirectiveFrame.mk (sl "note") bq 3 [] [] [] 0] true false bq 0 0 []).stack =
      DirectiveFrame.mk (sl "note") bq 3 [] [] [] 0 :: [] ∧
    (ScanState.mk [DirectiveFrame.mk (sl "note") bq 3 [] [] [] 0] true false bq 0 0 []).inOptions = true ∧
    openMatch (sl ":b: 2") = none ∧
    isCloseFence (pyLstrip (sl ":b: 2"))
      ((sl ":b: 2").length - (pyLstrip (sl ":b: 2")).length)
      (DirectiveFrame.mk (sl "note") bq 3 [] [] [] 0) = false ∧
    scanStep transformDirective transformInline
      (scanStep transformDirective transformInline
        (ScanState.mk [DirectiveFrame.mk (sl "note") bq 3 [] [] [] 0] true false bq 0 0 []) [])
      (sl ":b: 2") =
      { ScanState.mk [DirectiveFrame.mk (sl "note") bq 3 [] [] [] 0] true false bq 0 0 [] with
        inOptions := false,
        stack := { DirectiveFrame.mk (sl "note") bq 3 [] [] [] 0 with
          bodyLines := (DirectiveFrame.mk (sl "note") bq 3 [] [] [] 0).bodyLines ++
            [stripIndent (sl ":b: 2") (DirectiveFrame.mk (sl "note") bq 3 [] [] [] 0).indent] } :: [] } :=
  ⟨rfl, rfl, by decide, by decide,
    c5_blank_ends_options transformDirective transformInline _
      (DirectiveFrame.mk (sl "note") bq 3 [] [] [] 0) [] (sl ":b: 2")
      rfl rfl (by decide) (by decide)⟩

/-- C8 (amended): a caption line dispatched while table rows are buffered
wraps the buffered rows only when it matches `_TABLE_CAPTION_RE`, whose id
group requires the `tbl-` prefix; the captured name therefore always carries
that prefix (and the name option is always emitted).  A caption whose id
lacks the prefix, or a bare caption with no id, never matches and never
wraps — see the counterexample. -/
theorem c8_caption_wrap (fuel : Nat) (lines : List (List Char)) (st : QState)
    (line cap name : List Char) (out2 : List (List Char))
    (hcap : matchTableCaption (pyStrip line) = some (cap, name))
    (hin : st.inTable = true)
    (hpop : popN st.tableBuffer.length st.output = some out2) :
    (sl "tbl-").isPrefixOf name = true ∧
    goQuarto (fuel + 1) (line :: lines) st =
      goQuarto fuel lines
        { output := out2 ++ buildTableDirective (pyStrip cap) name st.tableBuffer,
          tableBuffer := [], inTable := false } := by
  obtain ⟨⟨w, r1, hshape, hw⟩, hpre⟩ := matchTableCaption_inv hcap
  refine ⟨hpre, ?_⟩
  have hwc : ¬ w = ':' := by
    intro he; rw [he] at hw; exact absurd hw (by decide)
  have hrun := colonRun_one (w := w) (r := r1) hwc
  have h1 : execCheck (pyStrip line) = none := by
    rw [hshape]
    simp [execCheck, matchExecCode_eq_none_of_head (show ¬ (':' : Char) = bq by decide)]
  have h2 : matchCallout (pyStrip line) = none := by
    rw [hshape]; simp [matchCallout, hrun]
  have h3 : matchTabset (pyStrip line) = none := by
    rw [hshape]; simp [matchTabset, hrun]
  have h4 : matchMargin (pyStrip line) = none := by
    rw [hshape]; simp [matchMargin, hrun]
  have h5 : matchImgAttrs (pyStrip line) = none := by
    rw [hshape]
    simp [matchImgAttrs, show sl "![" = '!' :: '[' :: [] from rfl,
      isPrefixOf_cons_of_ne (show ¬ ('!' : Char) = ':' by decide)]
  have h6 : matchMathOpen (pyStrip line) = false := by
    rw [hshape]
    simp [matchMathOpen, show sl "$$" = '$' :: '$' :: [] from rfl,
      isPrefixOf_cons_of_ne (show ¬ ('$' : Char) = ':' by decide)]
  simp only [goQuarto, h1, h2, h3, h4, h5, h6, hcap, hin, hpop,
    Bool.false_eq_true, if_false]

/-- Witness for `c8_caption_wrap`: one buffered row, a caption line with a
`tbl-` id, and the resulting wrap step. -/
theorem c8_caption_wrap_witness :
    matchTableCaption (pyStrip (sl ": Cap \x7b#tbl-z\x7d")) =
      some (sl "Cap", sl "tbl-z") ∧
    (QState.mk [sl "| a |"] [sl "| a |"] true).inTable = true ∧
    popN (QState.mk [sl "| a |"] [sl "| a |"] true).tableBuffer.length
      (QState.mk [sl "| a |"] [sl "| a |"] true).output = some [] ∧
    ((sl "tbl-").isPrefixOf (sl "tbl-z") = true ∧
      goQuarto 1 [sl ": Cap \x7b#tbl-z\x7d"] (QState.mk [sl "| a |"] [sl "| a |"] true) =
        goQuarto 0 []
          { output := [] ++ buildTableDirective (pyStrip (sl "Cap")) (sl "tbl-z")
              (QState.mk [sl "| a |"] [sl "| a |"] true).tableBuffer,
            tableBuffer := [], inTable := false }) :=
  ⟨by decide, rfl, by decide,
    c8_caption_wrap 0 [] (QState.mk [sl "| a |"] [sl "| a |"] true)
      (sl ": Cap \x7b#tbl-z\x7d") (sl "Cap") (sl "tbl-z") []
      (by decide) rfl (by decide)⟩

/-- C4: on every input text both public conversions terminate with a string
and raise no exception.  The forward conversion's embedding is a total
function (no operation in `Scanner.scan` or the forward transforms can
fail), so it trivially returns a string; the reverse conversion contains the
one fallible operation of the pipeline — the `output_lines.pop()` calls of
the table-caption branch, modelled in `Option` — and `goQuarto_isSome` shows
it never fails. -/
theorem c4_no_exception (text : String) :
    (∃ o1, convert_myst_to_quarto text = o1) ∧
    (∃ o2, convert_quarto_to_myst? text = some o2) := by
  refine ⟨⟨_, rfl⟩, ?_⟩
  have h := goQuarto_isSome (splitChar '\n' text.toList).length
    (splitChar '\n' text.toList) (QState.mk [] [] false) (le_refl _) (by simp)
  obtain ⟨out, hout⟩ := Option.isSome_iff_exists.mp h
  refine ⟨String.mk (joinNL out), ?_⟩
  simp only [convert_quarto_to_myst?]
  rw [hout]
  rfl

end Mystquarto
